import Mathlib

/-!
Verification development for the Qt documentation declaration parser and
cross-reference type resolver (`qt_doc_parser.py`).

Strings are modelled as `List Char`.  Python exceptions are modelled by the
inductive `Err`; the Python class hierarchy (`TypeParseException` and
`InvalidLayoutException` and `NoTypeOriginException` are subclasses of
`ParseException`, which is a subclass of `Exception`) is reflected by the
predicates `isTypeParseExc` and `isParseExc`.  General recursion (the
recursive type grammar and the inheritance-chain walk) is made structural
with an explicit fuel parameter; running out of fuel is the distinguished
error `Err.fuelOut`, which no real execution reaches for the inputs used
in the theorems below.
-/

abbrev Str := List Char

/-- Whitespace characters stripped by Python 2 `str.strip` / matched by `\s`. -/
def pyIsSpace (c : Char) : Bool :=
  c == ' ' || c == '\t' || c == '\n' || c == '\r' || c == '\x0b' || c == '\x0c'

/-- Word characters of Python 2 `\w` (ASCII, no `re.UNICODE`). -/
def pyIsWord (c : Char) : Bool :=
  c.isAlpha || c.isDigit || c == '_'

/-- Characters matched by the `[\w:]` class of the template regex. -/
def isWordColon (c : Char) : Bool :=
  pyIsWord c || c == ':'

/-- Python `str.lstrip`. -/
def lstrip (s : Str) : Str := s.dropWhile pyIsSpace

/-- Python `str.rstrip`. -/
def rstrip (s : Str) : Str := (s.reverse.dropWhile pyIsSpace).reverse

/-- Python `str.strip`. -/
def strip (s : Str) : Str := rstrip (lstrip s)

/-- List-of-characters prefix test (Python `str.startswith`). -/
def isPrefixL : Str → Str → Bool
  | [], _ => true
  | _ :: _, [] => false
  | p :: ps, c :: cs => p == c && isPrefixL ps cs

/-- List-of-characters suffix test (Python `str.endswith`). -/
def endsWithL (s suf : Str) : Bool := isPrefixL suf.reverse s.reverse

/-- Python `str.split(',')`: splits on every comma, keeping empty fragments. -/
def splitComma : Str → List Str
  | [] => [[]]
  | c :: rest =>
    if c = ',' then [] :: splitComma rest
    else
      match splitComma rest with
      | [] => [[c]]
      | f :: fs => (c :: f) :: fs

/-- Python `str.split('=')`. -/
def splitEq : Str → List Str
  | [] => [[]]
  | c :: rest =>
    if c = '=' then [] :: splitEq rest
    else
      match splitEq rest with
      | [] => [[c]]
      | f :: fs => (c :: f) :: fs

/-- Python `str.split("::")`: greedy left-to-right split on the two-character
separator. -/
def splitColons : Str → List Str
  | ':' :: ':' :: rest => [] :: splitColons rest
  | c :: rest =>
    match splitColons rest with
    | [] => [[c]]
    | f :: fs => (c :: f) :: fs
  | [] => [[]]

/-- Occurrences of a character in a string (Python `str.count` for a single
character). -/
def countChar (s : Str) (c : Char) : Nat := (s.filter (· == c)).length

/-- Python exceptions of `qt_doc_parser.py`.  `parseExc` is a bare
`ParseException`, `typeParse` a `TypeParseException`, `invalidLayout` an
`InvalidLayoutException`, `noTypeOrigin` a `NoTypeOriginException`,
`plainExc` a plain `Exception`, `keyError` a `KeyError`.  `fuelOut` is the
fuel-exhaustion artifact of the embedding. -/
inductive Err where
  | parseExc (msg : Str)
  | typeParse (msg : Str)
  | invalidLayout
  | noTypeOrigin (msg : Str)
  | plainExc (msg : Str)
  | keyError (key : Str)
  | fuelOut
deriving Repr

/-- Exceptions caught by `except TypeParseException`. -/
def isTypeParseExc : Err → Bool
  | .typeParse _ => true
  | _ => false

/-- Exceptions caught by `except ParseException` (the whole class hierarchy
rooted at `ParseException`). -/
def isParseExc : Err → Bool
  | .parseExc _ => true
  | .typeParse _ => true
  | .invalidLayout => true
  | .noTypeOrigin _ => true
  | _ => false

/-- Result dictionary of `parse_type`: key `indirection` present iff a suffix
was stripped (holding the literal suffix), key `is_const` present iff a
leading `const ` was stripped, key `template_arguments` present iff the
template regex matched.  The spec names the indirection tags `pointer` for
`*`, `reference` for `&`, `rvalue_reference` for `&&`, `pointer_reference`
for `*&` and `double_pointer` for `**`. -/
structure TypeRef where
  indirection : Option Str := none
  is_const : Bool := false
  template_arguments : Option (List TypeRef) := none
  base : Str := []
deriving Repr

/-- Merging pass of `argument_list_template_dirty_fix`: find the first
fragment whose `<` count differs from its `>` count and which has a right
neighbor, and merge the two with `", "` in between. -/
def dirtyFixStep : List Str → Option (List Str)
  | a :: b :: rest =>
    if countChar a '<' ≠ countChar a '>' then
      some ((a ++ (", ").data ++ b) :: rest)
    else
      (dirtyFixStep (b :: rest)).map (a :: ·)
  | _ => none

/-- Iterate `dirtyFixStep` until no merge applies; each merge shortens the
list, so `l.length` steps always suffice. -/
def dirtyFixIter : Nat → List Str → List Str
  | 0, l => l
  | n + 1, l =>
    match dirtyFixStep l with
    | none => l
    | some l' => dirtyFixIter n l'

/-- The `argument_list_template_dirty_fix` function: repeatedly merges a
fragment with unbalanced angle brackets into its right neighbor. -/
def argument_list_template_dirty_fix (l : List Str) : List Str :=
  dirtyFixIter l.length l

/-- Match of the regex `^([\w:]+)\s*<(.*)>$` (Python 2 `re.match`): group 1
is the maximal leading `[\w:]` run (backtracking cannot shorten it because
the following `\s*<` cannot consume a `[\w:]` character), then optional
whitespace, then `<`, and group 2 is everything up to the final `>`, which
must be the last character; `.` does not match a newline. -/
def templateMatch (s : Str) : Option (Str × Str) :=
  let w := s.takeWhile isWordColon
  if w.isEmpty then none
  else
    let rest := (s.drop w.length).dropWhile pyIsSpace
    match rest with
    | '<' :: tail =>
      match tail.reverse with
      | '>' :: midRev =>
        if midRev.reverse.any (· == '\n') then none
        else some (w, midRev.reverse)
      | _ => none
    | _ => none

/-- Suffix-stripping step of `parse_type`: try `&&`, `**`, `*&`, `&`, `*` in
that order, strip the first match and `strip` the remainder. -/
def stripIndirection (s : Str) : Option Str × Str :=
  if endsWithL s ("&&").data then (some ("&&").data, strip (s.take (s.length - 2)))
  else if endsWithL s ("**").data then (some ("**").data, strip (s.take (s.length - 2)))
  else if endsWithL s ("*&").data then (some ("*&").data, strip (s.take (s.length - 2)))
  else if endsWithL s ("&").data then (some ("&").data, strip (s.take (s.length - 1)))
  else if endsWithL s ("*").data then (some ("*").data, strip (s.take (s.length - 1)))
  else (none, s)

mutual

/-- The `parse_type` function: strip, fail on empty, strip one indirection
suffix, strip a leading `const `, match the template regex and recursively
parse the comma-split (and dirty-fixed) template arguments, then fail with
the `TypeParseException` `too much indirection` if the remaining string
still contains `&` or `*`; the remaining string becomes `base`. -/
def parse_type : Nat → Str → Except Err TypeRef
  | 0, _ => .error .fuelOut
  | fuel + 1, initial =>
    let s1 := strip initial
    if s1.isEmpty then .error (.parseExc (("Type is missing").data))
    else
      let ind := (stripIndirection s1).1
      let s2 := (stripIndirection s1).2
      let isConst := isPrefixL (("const ").data) s2
      let s3 := if isConst then strip (s2.drop 6) else s2
      match templateMatch s3 with
      | some (w, mid) =>
        let s4 := strip w
        match parseTemplateArgs fuel (argument_list_template_dirty_fix (splitComma mid)) with
        | .error e => .error e
        | .ok targs =>
          if s4.any (fun c => c == '&' || c == '*') then
            .error (.typeParse (("Invalid type: ").data ++ initial ++ (": too much indirection").data))
          else
            .ok { indirection := ind, is_const := isConst,
                  template_arguments := some targs, base := s4 }
      | none =>
        if s3.any (fun c => c == '&' || c == '*') then
          .error (.typeParse (("Invalid type: ").data ++ initial ++ (": too much indirection").data))
        else
          .ok { indirection := ind, is_const := isConst, template_arguments := none, base := s3 }

/-- Loop over the comma-split template arguments: strip each, skip empties,
parse the rest recursively. -/
def parseTemplateArgs : Nat → List Str → Except Err (List TypeRef)
  | _, [] => .ok []
  | 0, _ :: _ => .error .fuelOut
  | fuel + 1, a :: rest =>
    let a' := strip a
    if a'.isEmpty then parseTemplateArgs fuel rest
    else
      match parse_type fuel a' with
      | .error e => .error e
      | .ok t =>
        match parseTemplateArgs fuel rest with
        | .error e => .error e
        | .ok ts => .ok (t :: ts)

end

/-- Parsed argument dictionary of `parse_argument`: key `default_value`
present iff an `=` split produced two parts. -/
structure Argument where
  default_value : Option Str := none
  name : Str := []
  type : TypeRef
deriving Repr

/-- The `parse_argument` function: a bare `int` or `bool` becomes an unnamed
argument called `value`; otherwise split on `=` for a default value, take
the trailing `\w+` run as the name, and parse the text before it as the
type. -/
def parse_argument (fuel : Nat) (string : Str) : Except Err Argument :=
  if string = ("int").data ∨ string = ("bool").data then
    match parse_type fuel string with
    | .error e => .error e
    | .ok t => .ok { name := ("value").data, type := t }
  else
    let parts1 := splitEq string
    if parts1.length ≠ 1 ∧ parts1.length ≠ 2 then .error .invalidLayout
    else
      let defaultValue : Option Str :=
        if parts1.length = 2 then some (strip (parts1.getD 1 [])) else none
      let otherPart := strip (parts1.getD 0 [])
      let nameRun := (otherPart.reverse.takeWhile pyIsWord).reverse
      if nameRun.isEmpty then .error .invalidLayout
      else
        let typeString := otherPart.take (otherPart.length - nameRun.length)
        match parse_type fuel typeString with
        | .error e => .error e
        | .ok t => .ok { default_value := defaultValue, name := nameRun, type := t }

/-- Method/field dictionary built by `parse_methods`.  A key that the Python
code sets conditionally is an `Option` or a `Bool` defaulting to `false`;
`arguments` is present exactly for non-variable declarations.  The section
attributes (`protected`, `slot`, `signal`, `static`) are irrelevant to the
claims and omitted. -/
structure Method where
  scope : Str := []
  virtual : Bool := false
  return_type : Option TypeRef := none
  name : Str := []
  is_variable : Bool := false
  type : Option TypeRef := none
  arguments : Option (List Argument) := none
  variable_arguments : Bool := false
  pure_virtual : Bool := false
  is_const : Bool := false
  operator : Option Str := none
  constructor : Bool := false
  destructor : Bool := false
deriving Repr

/-- Constructor/destructor/operator classification at the end of the
class-scope branch of `parse_methods`: a name equal to the class name is a
constructor and must not carry a return type; `~` plus the class name is a
destructor with the same restriction; an operator is exempt; any other
method must have a return type. -/
def classifyMember (cn : Str) (m : Method) : Except Err Method :=
  if m.name = cn then
    match m.return_type with
    | some _ => .error (.parseExc (("Constructors are not allowed to have return types").data))
    | none => .ok { m with constructor := true }
  else if m.name = '~' :: cn then
    match m.return_type with
    | some _ => .error (.parseExc (("Destructors are not allowed to have return types").data))
    | none => .ok { m with destructor := true }
  else
    match m.operator with
    | some _ => .ok m
    | none =>
      match m.return_type with
      | none => .error (.parseExc (("No return type in a method").data))
      | some _ => .ok m

/-- Name extraction of `parse_methods`: the text before the first `(`, except
that for a signature starting with `operator()` the search starts after that
prefix; in the general branch a missing `(` raises a plain `Exception`
(not a `ParseException`).  Returns the stripped name and the stripped text
after the name-terminating parenthesis. -/
def nameAndRest (sig : Str) : Except Err (Str × Str) :=
  if isPrefixL (("operator()").data) sig then
    match (sig.drop 10).findIdx? (· == '(') with
    | some j => .ok (strip (sig.take (j + 10)), strip (sig.drop (j + 10 + 1)))
    | none => .ok (strip sig.dropLast, strip sig)
  else
    match sig.findIdx? (· == '(') with
    | some i => .ok (strip (sig.take i), strip (sig.drop (i + 1)))
    | none => .error (.plainExc (("Invalid signature syntax").data))

/-- Python `rsplit(")", 1)`: split at the last `)`, or `none` when there is
no `)` (in which case the Python list has length 1). -/
def rsplitParen (s : Str) : Option (Str × Str) :=
  match s.reverse.findIdx? (· == ')') with
  | none => none
  | some j =>
    let i := s.length - 1 - j
    some (s.take i, s.drop (i + 1))

/-- Argument-fragment loop of `parse_methods`: skip fragments that are empty
before stripping, treat a stripped `...` as the variadic marker, and parse
everything else with `parse_argument`. -/
def parseArgsFold (fuel : Nat) : List Str → Except Err (List Argument × Bool)
  | [] => .ok ([], false)
  | p :: rest =>
    if p.isEmpty then parseArgsFold fuel rest
    else
      let p' := strip p
      if p' = ("...").data then
        match parseArgsFold fuel rest with
        | .error e => .error e
        | .ok (as, _) => .ok (as, true)
      else
        match parse_argument fuel p' with
        | .error e => .error e
        | .ok a =>
          match parseArgsFold fuel rest with
          | .error e => .error e
          | .ok (as, v) => .ok (a :: as, v)

/-- Trailing-qualifier handling of `parse_methods`: strip a `= 0` suffix
(pure virtual), then a ` const` suffix; whatever remains is returned for the
caller to reject when non-empty. -/
def stripMethodQualifiers (sufText : Str) : Bool × Bool × Str :=
  let pv := endsWithL sufText ((" = 0").data)
  let suf1 := if pv then sufText.take (sufText.length - 4) else sufText
  let ic := endsWithL suf1 ((" const").data)
  let suf2 := if ic then suf1.take (suf1.length - 6) else suf1
  (pv, ic, suf2)

/-- Non-variable branch of the `parse_methods` row loop: extract the name,
split off the parenthesized argument list, parse the arguments, consume the
trailing `= 0` and `const` qualifiers (anything left is a
`ParseException`), record an operator suffix, and classify class members. -/
def parseCallable (fuel : Nat) (class_name : Option Str) (scope : Str) (virt : Bool)
    (ret : Option TypeRef) (sig : Str) : Except Err (Option Method) :=
  match nameAndRest sig with
  | .error e => .error e
  | .ok (name, after) =>
    match rsplitParen after with
    | none => .error (.parseExc (("Invalid signature syntax").data))
    | some (argsText, sufText) =>
      match parseArgsFold fuel (argument_list_template_dirty_fix (splitComma (strip argsText))) with
      | .error e => .error e
      | .ok (args, varargs) =>
        match stripMethodQualifiers sufText with
        | (pv, ic, suf2) =>
        if ¬suf2.isEmpty then .error (.parseExc (("Unprocessed suffix: ").data ++ suf2))
        else
          let op : Option Str :=
            if isPrefixL (("operator").data) name then some (strip (name.drop 8)) else none
          let m0 : Method :=
            { scope := scope, virtual := virt, return_type := ret, name := name,
              arguments := some args, variable_arguments := varargs,
              pure_virtual := pv, is_const := ic, operator := op }
          match class_name with
          | none => .ok (some m0)
          | some cn =>
            match classifyMember cn m0 with
            | .error e => .error e
            | .ok m => .ok (some m)

/-- Return-type handling of a `parse_methods` row: an empty cell yields no
return type, a non-empty one is parsed with `parse_type`. -/
def parseReturnType (fuel : Nat) (rts : Str) : Except Err (Option TypeRef) :=
  if rts.isEmpty then .ok none
  else
    match parse_type fuel rts with
    | .error e => .error e
    | .ok t => .ok (some t)

/-- One row of the `parse_methods` loop, from the two stripped cell texts: a
`typedef` row is skipped, a leading `virtual` is consumed, a non-empty
return-type cell is parsed, a bare-identifier signature is a variable
declaration (consuming the parsed return type as its `type`; a variable row
without a return type raises a `KeyError`), and anything else goes through
`parseCallable`. -/
def parse_row (fuel : Nat) (class_name : Option Str) (rts0 sig0 : Str) :
    Except Err (Option Method) :=
  let rts1 := strip rts0
  let sig := strip sig0
  let scope := if class_name.isSome then ("class").data else ("global").data
  if rts1 = ("typedef").data then .ok none
  else
    let virt := isPrefixL (("virtual").data) rts1
    let rts := if virt then strip (rts1.drop 7) else rts1
    match parseReturnType fuel rts with
    | .error e => .error e
    | .ok ret =>
      if ¬sig.isEmpty ∧ sig.all pyIsWord then
        match ret with
        | none => .error (.keyError (("return_type").data))
        | some t =>
          .ok (some { scope := scope, virtual := virt, name := sig,
                      is_variable := true, type := some t })
      else
        parseCallable fuel class_name scope virt ret sig

/-- The `parse_methods` row loop: each row contributes a method unless its
processing raised a `TypeParseException`, which drops only that row with a
logged warning; every other exception propagates out of the table. -/
def parse_methods (fuel : Nat) (class_name : Option Str) :
    List (Str × Str) → Except Err (List Method)
  | [] => .ok []
  | (a, b) :: rest =>
    match parse_row fuel class_name a b with
    | .ok none => parse_methods fuel class_name rest
    | .ok (some m) =>
      match parse_methods fuel class_name rest with
      | .error e => .error e
      | .ok ms => .ok (m :: ms)
    | .error e =>
      if isTypeParseExc e then parse_methods fuel class_name rest
      else .error e

/-- One document of the batch model: its class name (when the page documents
a class) and its method-table rows, after the HTML layer extracted the cell
texts. -/
structure DocModel where
  class_name : Option Str := none
  rows : List (Str × Str) := []

/-- The batch loop of `parse`: each document is parsed in a
`try`/`except ParseException` that drops the whole document with a logged
error; any exception outside the `ParseException` hierarchy propagates and
kills the run. -/
def parse_batch (fuel : Nat) : List DocModel → Except Err (List (List Method))
  | [] => .ok []
  | d :: rest =>
    match parse_methods fuel d.class_name d.rows with
    | .ok ms =>
      match parse_batch fuel rest with
      | .error e => .error e
      | .ok out => .ok (ms :: out)
    | .error e =>
      if isParseExc e then parse_batch fuel rest
      else .error e

/-- One parsed enum value row: stripped name and value cells plus the
description text. -/
structure EnumValue where
  name : Str
  value : Str
  description : Str
deriving Repr

/-- Truthiness of the optional namespace string (Python `if s:`). -/
def nsTruthy : Option Str → Bool
  | some s => ¬s.isEmpty
  | none => false

/-- Value-row loop of `parse_nested_types` for one `valuelist` table: strip
the name and value cells, require and remove the `Class::` prefix when a
class or namespace encloses the table, and deduplicate by name, keeping the
first-seen value; every duplicate logs an `encountered multiple times`
error, and a second message is logged when the values disagree.  Returns the
accepted values together with the log. -/
def processValueRows (cls : Option Str) :
    List (Str × Str × Str) → List EnumValue → List Str → Except Err (List EnumValue × List Str)
  | [], acc, logs => .ok (acc, logs)
  | (n0, v0, d) :: rest, acc, logs =>
    let nStripped := strip n0
    let v := strip v0
    let nRes : Except Err Str :=
      if nsTruthy cls then
        let c := cls.getD []
        if isPrefixL (c ++ ("::").data) nStripped then .ok (nStripped.drop (c.length + 2))
        else .error (.parseExc (("enum item without namespace").data))
      else .ok nStripped
    match nRes with
    | .error e => .error e
    | .ok n =>
      match acc.find? (fun x => decide (x.name = n)) with
      | some prev =>
        let logs1 := logs ++ [("Enum value ").data ++ n ++ (" is encountered multiple times.").data]
        let logs2 :=
          if v ≠ prev.value then logs1 ++ [("And values are not the same. Nuff said.").data]
          else logs1
        processValueRows cls rest acc logs2
      | none => processValueRows cls rest (acc ++ [⟨n, v, d⟩]) logs

/-- Registry entry of `types_data`: every field models a dictionary key that
may be absent. -/
structure Entry where
  kind : Option Str := none
  origin : Option Str := none
  qt_header : Option Str := none
  inherits : Option TypeRef := none
  meaning : Option TypeRef := none
deriving Repr

/-- The type registry, a Python dict keyed by canonical name. -/
abbrev Registry := List (Str × Entry)

/-- Dictionary lookup in the registry. -/
def lookupT (types : Registry) (n : Str) : Option Entry :=
  (types.find? (fun p => decide (p.1 = n))).map (·.2)

/-- Candidate scan of `fix_nested_types`: for `i` from the number of
namespace parts down to `0`, join the first `i` parts with the base name and
return the first candidate present in the registry. -/
def findCandidate (types : Registry) (parts : List Str) (base : Str) : Option Str :=
  ((List.range (parts.length + 1)).reverse).findSome? fun i =>
    let c := List.intercalate (("::").data) (parts.take i ++ [base])
    if (lookupT types c).isSome then some c else none

/-- The `while True` loop of `fix_nested_types`: recompute the namespace
parts when the current namespace is truthy (otherwise the previous parts are
reused), scan the candidates, and on failure switch to the inherited base
class when the current namespace is a registry entry.  Reading the
`inherits` key of an entry that has none is a Python `KeyError` (the
registry only stores the key when a truthy `inherits` was parsed, so the
`if n:` else-branch of the source is unreachable).  Exhaustion raises
`NoTypeOriginException`. -/
def resolveLoop (types : Registry) (base : Str) :
    Nat → Option Str → List Str → Except Err Str
  | 0, _, _ => .error .fuelOut
  | fuel + 1, ns, prevParts =>
    let parts := if nsTruthy ns then splitColons (ns.getD []) else prevParts
    match findCandidate types parts base with
    | some c => .ok c
    | none =>
      if nsTruthy ns ∧ (lookupT types (ns.getD [])).isSome then
        match (lookupT types (ns.getD [])).bind Entry.inherits with
        | none => .error (.keyError (("inherits").data))
        | some t => resolveLoop types base fuel (some t.base) parts
      else .error (.noTypeOrigin (("Unknown type: ").data ++ base))

/-- Set insertion for the `used_types` set, modelled as a duplicate-free
list in first-use order. -/
def addUsed (used : List Str) (c : Str) : List Str :=
  if used.any (fun u => decide (u = c)) then used else used ++ [c]

mutual

/-- The `fix_nested_types` closure of `fix_method_types`: rewrite the
template arguments first (left to right, stopping at the first escaping
exception), apply the hard-coded `QFile::Permissions` alias, then run the
namespace-and-inheritance search; on success the base is replaced by the
canonical candidate, which is marked used.  The returned triple carries the
(possibly partially) rewritten type, the updated used set, and the escaped
exception if any — mutation is in place, so work already done survives a
failure. -/
def fix_nested_types (types : Registry) :
    Nat → TypeRef → Option Str → List Str → TypeRef × List Str × Option Err
  | 0, t, _, used => (t, used, some .fuelOut)
  | fuel + 1, t, ns, used =>
    let sub :=
      match t.template_arguments with
      | none => (t.template_arguments, used, none)
      | some l =>
        match fixSubtypeList types fuel l ns used with
        | (l', u', e) => (some l', u', e)
    match sub with
    | (targs', used', some e) => ({ t with template_arguments := targs' }, used', some e)
    | (targs', used', none) =>
      let base1 :=
        if t.base = ("QFile::Permissions").data then ("QFileDevice::Permissions").data
        else t.base
      match resolveLoop types base1 (fuel + 1) ns [] with
      | .ok c =>
        ({ t with template_arguments := targs', base := c }, addUsed used' c, none)
      | .error e =>
        ({ t with template_arguments := targs', base := base1 }, used', some e)

/-- Left-to-right rewriting of a template-argument list; an escaping
exception leaves the remaining arguments untouched. -/
def fixSubtypeList (types : Registry) :
    Nat → List TypeRef → Option Str → List Str → List TypeRef × List Str × Option Err
  | _, [], _, used => ([], used, none)
  | 0, t :: ts, _, used => (t :: ts, used, some .fuelOut)
  | fuel + 1, t :: ts, ns, used =>
    match fix_nested_types types fuel t ns used with
    | (t', u', some e) => (t' :: ts, u', some e)
    | (t', u', none) =>
      match fixSubtypeList types fuel ts ns u' with
      | (ts', u'', e') => (t' :: ts', u'', e')

end

/-- Per-method body of the `fix_method_types` loop: rewrite the return type
(when present) and then each argument type in order; the first escaping
exception stops the work but everything already rewritten stays rewritten.
The caller catches only `NoTypeOriginException` (logging a warning); any
other exception propagates. -/
def fixMethodTypes (fuel : Nat) (types : Registry) (ns : Option Str)
    (m : Method) (used : List Str) : Method × List Str × Option Err :=
  let retStep :=
    match m.return_type with
    | none => (m.return_type, used, none)
    | some rt =>
      match fix_nested_types types fuel rt ns used with
      | (rt', u', e) => (some rt', u', e)
  match retStep with
  | (ret', u1, some e) => ({ m with return_type := ret' }, u1, some e)
  | (ret', u1, none) =>
    match fixArgList fuel types ns (m.arguments.getD []) u1 with
    | (args', u2, e2) =>
      ({ m with return_type := ret',
                arguments := m.arguments.map (fun _ => args') }, u2, e2)
where
  fixArgList (fuel : Nat) (types : Registry) (ns : Option Str) :
      List Argument → List Str → List Argument × List Str × Option Err
    | [], used => ([], used, none)
    | a :: rest, used =>
      match fix_nested_types types fuel a.type ns used with
      | (t', u', some e) => ({ a with type := t' } :: rest, u', some e)
      | (t', u', none) =>
        match fixArgList fuel types ns rest u' with
        | (rest', u'', e') => ({ a with type := t' } :: rest', u'', e')

/-- Typedef pruning at the end of `fix_method_types`: every registry entry
whose `kind` is `typedef` (Python `data.get("kind", "") == "typedef"`) and
whose name was never marked used is removed. -/
def pruneUnusedTypedefs (types : Registry) (used : List Str) : Registry :=
  types.filter fun p =>
    ¬((p.2.kind.getD []) = ("typedef").data ∧ ¬used.contains p.1)

mutual

/-- The `check_type` helper of `add_typedef_data`: the base must be a
registry key, and so recursively for every template argument. -/
def check_type (types : Registry) : Nat → TypeRef → Except Err Unit
  | 0, _ => .error .fuelOut
  | fuel + 1, t =>
    if (lookupT types t.base).isSome then
      match t.template_arguments with
      | none => .ok ()
      | some l => check_list types fuel l
    else .error (.parseExc (("Unknown type: ").data ++ t.base))

/-- Recursive registry check of a template-argument list. -/
def check_list (types : Registry) : Nat → List TypeRef → Except Err Unit
  | _, [] => .ok ()
  | 0, _ :: _ => .error .fuelOut
  | fuel + 1, t :: ts =>
    match check_type types fuel t with
    | .error e => .error e
    | .ok _ => check_list types fuel ts

end

/-- Meaning assignment on a registry entry. -/
def setMeaning (types : Registry) (name : Str) (mp : TypeRef) : Registry :=
  types.map fun p => if p.1 = name then (p.1, { p.2 with meaning := some mp }) else p

/-- The `add_meaning` helper of `add_typedef_data`: parse the literal meaning
string, require the typedef name and (recursively) every base of the parsed
meaning to be registry keys, then store the parsed meaning on the entry. -/
def add_meaning (fuel : Nat) (types : Registry) (name meaning : Str) :
    Except Err Registry :=
  match parse_type fuel meaning with
  | .error e => .error e
  | .ok mp =>
    if (lookupT types name).isSome then
      match check_type types fuel mp with
      | .error e => .error e
      | .ok _ =>
        if (lookupT types mp.base).isSome then .ok (setMeaning types name mp)
        else .error (.parseExc (("Unknown type: ").data ++ meaning))
    else .error (.parseExc (("Unknown type: ").data ++ name))

mutual

/-- Recursive invariant of a parsed type: the base contains neither `*` nor
`&`, and likewise for every template argument. -/
def cleanBases : TypeRef → Bool
  | ⟨_, _, none, base⟩ => !base.any (fun c => c == '&' || c == '*')
  | ⟨_, _, some l, base⟩ => (!base.any (fun c => c == '&' || c == '*')) && cleanList l

/-- List version of `cleanBases`. -/
def cleanList : List TypeRef → Bool
  | [] => true
  | t :: ts => cleanBases t && cleanList ts

end

/-- Modelled from the spec: a bare identifier or a `::`-qualified identifier
(`A::B::C`) in the sense of the claimed invariant on `base` — non-empty
`\w+` segments separated by `::`. -/
def specQualifiedIdent (s : Str) : Bool :=
  (splitColons s).all fun p => ¬p.isEmpty && p.all pyIsWord

/-- Plain base type with no indirection, no const, no template arguments. -/
def baseT (b : Str) : TypeRef := ⟨none, false, none, b⟩

/-- Registry entry of a documented class, with its optional inherited base. -/
def classEntry (inh : Option Str) : Entry :=
  { kind := some (("class").data), origin := some (("qt").data),
    inherits := inh.map baseT }

/-- Registry entry of a documented nested enum. -/
def enumEntry : Entry :=
  { kind := some (("enum").data), origin := some (("qt").data) }

/-- Registry entry of a documented typedef. -/
def typedefEntry : Entry :=
  { kind := some (("typedef").data), origin := some (("qt").data) }

/-- Registry entry of a builtin type. -/
def builtinEntry : Entry :=
  { origin := some (("c_built_in").data) }

/-- Registry of the inheritance scenario: class `Foo` inheriting `Base`,
which declares the nested enum `Base::Kind`; `Foo::Kind` does not exist. -/
def inheritRegistry : Registry :=
  [((("Foo").data), classEntry (some (("Base").data))),
   ((("Base").data), classEntry none),
   ((("Base::Kind").data), enumEntry)]

/-- The same registry with `Foo::Kind` also present. -/
def inheritRegistryMore : Registry :=
  ((("Foo::Kind").data), enumEntry) :: inheritRegistry

/-- Registry of the partial-resolution scenario: `Foo` inherits an
undocumented `Base`, and declares `Foo::A`; the name `Unknown` resolves
nowhere. -/
def partialRegistry : Registry :=
  [((("Foo").data), classEntry (some (("Base").data))),
   ((("Foo::A").data), enumEntry)]

/-- Method of the partial-resolution scenario: returns `A` and takes
arguments of types `A`, `Unknown` and `A`. -/
def methodSet : Method :=
  { scope := ("class").data, name := ("set").data,
    return_type := some (baseT (("A").data)),
    arguments := some [ { name := ("x").data, type := baseT (("A").data) },
                        { name := ("y").data, type := baseT (("Unknown").data) },
                        { name := ("z").data, type := baseT (("A").data) } ] }

/-- Table row whose empty return-type cell combined with a plain method
signature triggers the `No return type in a method` `ParseException`. -/
def rowMissingReturn : Str × Str := ((("")).data, ("foo(int x)").data)

/-- Well-formed method row. -/
def rowGood : Str × Str := (("int").data, ("bar(int x)").data)

/-- Row whose signature has no parenthesis, triggering the plain
`Exception` of the name search. -/
def rowNoParen : Str × Str := (("int").data, ("foo bar").data)

/-- Row whose return type has triple indirection, triggering the
`TypeParseException`. -/
def rowTooMuch : Str × Str := (("int***").data, ("baz(int x)").data)

/-- The method descriptor produced from `rowGood` in class scope. -/
def methodBar : Method :=
  { scope := ("class").data, return_type := some (baseT (("int").data)),
    name := ("bar").data,
    arguments := some [{ name := ("x").data, type := baseT (("int").data) }] }

/-- The variable descriptor produced from the row `("int", "x")` in class
scope: class scope, no constructor/destructor/operator marker, and no
return type. -/
def methodVarX : Method :=
  { scope := ("class").data, name := ("x").data, is_variable := true,
    type := some (baseT (("int").data)) }

/-- Registry of the pruning scenario: typedefs `Unused` and `Used` and the
builtin `int`; only `Used` and `int` are marked used. -/
def pruneRegistry : Registry :=
  [((("Unused").data), typedefEntry),
   ((("Used").data), typedefEntry),
   ((("int").data), builtinEntry)]

/-- The used-set of the pruning scenario. -/
def pruneUsed : List Str := [(("Used").data), (("int").data)]

/-- C1: `parse_type` on `const Foo::Bar<int, T> &` succeeds with base
`Foo::Bar`, `is_const` true, reference indirection (`&`), and exactly the
two template arguments `int` and `T` in that order.  The second conjunct
evidences that the indirection suffix is stripped before the leading const:
on `const &` the trailing `&` is stripped first, after which the remainder
`const` no longer carries the `const ` prefix (with its trailing space), so
the result has base `const` and `is_const` false — the opposite order would
have stripped both. -/
theorem c1_parse_type_const_template_reference :
    parse_type 64 (("const Foo::Bar<int, T> &").data) =
      .ok { indirection := some (("&").data), is_const := true,
            template_arguments := some [baseT (("int").data), baseT (("T").data)],
            base := ("Foo::Bar").data }
    ∧ parse_type 64 (("const &").data) =
      .ok { indirection := some (("&").data), is_const := false,
            template_arguments := none, base := ("const").data } :=
  ⟨rfl, rfl⟩

/-- C4: the dirty fix on the naive comma-split of `QMap<A,B> a, int b`
produces exactly the two fragments `QMap<A, B> a` and ` int b`, both
angle-bracket balanced, and re-joining them with `, ` reproduces the
original string modulo whitespace. -/
theorem c4_argument_splitter_two_fragments :
    argument_list_template_dirty_fix (splitComma (("QMap<A,B> a, int b").data)) =
      [("QMap<A, B> a").data, (" int b").data]
    ∧ (argument_list_template_dirty_fix (splitComma (("QMap<A,B> a, int b").data))).length = 2
    ∧ (argument_list_template_dirty_fix (splitComma (("QMap<A,B> a, int b").data))).all
        (fun f => countChar f '<' == countChar f '>') = true
    ∧ (List.intercalate ((", ").data)
        (argument_list_template_dirty_fix (splitComma (("QMap<A,B> a, int b").data)))).filter
          (fun c => !pyIsSpace c)
      = (("QMap<A,B> a, int b").data).filter (fun c => !pyIsSpace c) := by
  refine ⟨rfl, rfl, rfl, rfl⟩

/-- C2: in the registry where class `Foo` inherits `Base` and only
`Base::Kind` is registered, resolving the base name `Kind` in the namespace
of `Foo` walks the inheritance chain and rewrites it to `Base::Kind`,
marking it used; when `Foo::Kind` is also registered, the most-specific
enclosing-namespace candidate `Foo::Kind` wins instead. -/
theorem c2_inheritance_chain_resolution :
    fix_nested_types inheritRegistry 32 (baseT (("Kind").data)) (some (("Foo").data)) [] =
      (baseT (("Base::Kind").data), [("Base::Kind").data], none)
    ∧ fix_nested_types inheritRegistryMore 32 (baseT (("Kind").data)) (some (("Foo").data)) [] =
      (baseT (("Foo::Kind").data), [("Foo::Kind").data], none) :=
  ⟨rfl, rfl⟩

/-- C10: resolution of one method is not atomic on failure.  In the
partial-resolution scenario the walk fails with `NoTypeOriginException` on
the second argument `Unknown`, yet the return type and the first argument
have already been rewritten in place to the canonical `Foo::A` (and stay
so), while the argument after the failure point keeps its original base
`A`. -/
theorem c10_partial_resolution_not_rolled_back :
    fixMethodTypes 32 partialRegistry (some (("Foo").data)) methodSet [] =
      ({ methodSet with
           return_type := some (baseT (("Foo::A").data)),
           arguments := some [ { name := ("x").data, type := baseT (("Foo::A").data) },
                               { name := ("y").data, type := baseT (("Unknown").data) },
                               { name := ("z").data, type := baseT (("A").data) } ] },
       [("Foo::A").data],
       some (.noTypeOrigin ((("Unknown type: ").data ++ ("Unknown").data)))) :=
  rfl

/-- C3 counterexample: the `No return type in a method` condition
(`MissingReturnType`) raised on the first declaration is a bare
`ParseException`, which `parse_methods` does not catch (it catches only
`TypeParseException`), so the whole table fails and the good second
declaration is lost — rather than only the offending declaration being
dropped (first two conjuncts).  Moreover the plain `Exception` raised for
a signature without a parenthesis is caught nowhere, so the batch dies and
produces no output even for the later well-formed document (third
conjunct). -/
theorem c3_counterexample_declaration_errors_escape :
    parse_methods 64 (some (("Foo").data)) [rowGood] = .ok [methodBar]
    ∧ parse_methods 64 (some (("Foo").data)) [rowMissingReturn, rowGood] =
        .error (.parseExc (("No return type in a method").data))
    ∧ parse_batch 64 [⟨some (("Foo").data), [rowNoParen]⟩, ⟨some (("Foo").data), [rowGood]⟩] =
        .error (.plainExc (("Invalid signature syntax").data)) :=
  ⟨rfl, rfl, rfl⟩

/-- C3 amended: only a `TypeParseException` (`TooMuchIndirection`) is
declaration-local — the offending row is dropped with a warning and the
rest of the table parses (first conjunct).  Every other `ParseException`
raised while parsing a declaration (such as `MissingReturnType` or an
unprocessed qualifier suffix) aborts the whole document, which the batch
loop drops with a logged error while later documents still parse (second
conjunct).  A signature without an opening parenthesis raises a plain
`Exception` that is batch-fatal, so the run does not always produce output
for every document (third conjunct). -/
theorem c3_amended_error_severities :
    parse_methods 64 (some (("Foo").data)) [rowTooMuch, rowGood] = .ok [methodBar]
    ∧ parse_batch 64 [⟨some (("Foo").data), [rowMissingReturn, rowGood]⟩,
                      ⟨some (("Foo").data), [rowGood]⟩] = .ok [[methodBar]]
    ∧ parse_batch 64 [⟨some (("Foo").data), [rowNoParen]⟩, ⟨some (("Foo").data), [rowGood]⟩] =
        .error (.plainExc (("Invalid signature syntax").data)) :=
  ⟨rfl, rfl, rfl⟩

/-- C6 counterexample: the row `("int", "x")` in class scope parses
successfully into a descriptor with class scope and no constructor,
destructor or operator marker, yet with no `return_type` (it was moved into
`type` by the variable branch) — refuting the claim for descriptors that
are bare variable declarations. -/
theorem c6_counterexample_variable_row :
    parse_methods 64 (some (("Foo").data)) [((("int").data), (("x").data))] = .ok [methodVarX]
    ∧ methodVarX.scope = ("class").data
    ∧ methodVarX.constructor = false
    ∧ methodVarX.destructor = false
    ∧ methodVarX.operator = none
    ∧ methodVarX.return_type = none :=
  ⟨rfl, rfl, rfl, rfl, rfl, rfl⟩

/-- C9 counterexample: two value rows with the same name `A` and the same
value `1` are deduplicated, but not silently — the duplicate always logs
the `encountered multiple times` error even though the values agree,
refuting `logged ... only if their values disagree`. -/
theorem c9_counterexample_duplicate_always_logged :
    processValueRows none
        [((("A").data), (("1").data), (("x").data)), ((("A").data), (("1").data), (("y").data))] [] [] =
      .ok ([⟨("A").data, ("1").data, ("x").data⟩],
           [("Enum value A is encountered multiple times.").data]) :=
  rfl

/-- C8 counterexample: `parse_type` succeeds on `foo bar` with base
`foo bar`, which is neither a bare identifier nor a `::`-qualified
identifier (it contains a space) — the parser never validates the
identifier shape of `base`. -/
theorem c8_counterexample_base_not_identifier :
    parse_type 64 (("foo bar").data) = .ok (baseT (("foo bar").data))
    ∧ specQualifiedIdent (("foo bar").data) = false :=
  ⟨rfl, rfl⟩

/-- Membership is preserved from `strip` back to the original string. -/
theorem mem_strip {c : Char} {s : Str} (h : c ∈ strip s) : c ∈ s := by
  have h1 : c ∈ (lstrip s).reverse.dropWhile pyIsSpace := by
    simpa [strip, rstrip] using h
  have h2 : c ∈ lstrip s :=
    List.mem_reverse.mp (List.Sublist.mem h1 (List.dropWhile_sublist pyIsSpace))
  exact List.Sublist.mem h2 (List.dropWhile_sublist pyIsSpace)

/-- A string of `[\w:]` characters contains neither `&` nor `*`. -/
theorem noAmpStar_of_wordColon {s : Str} (h : ∀ c ∈ s, isWordColon c = true) :
    s.any (fun c => c == '&' || c == '*') = false := by
  rw [List.any_eq_false]
  intro c hc hcontra
  have hw := h c hc
  rcases Bool.or_eq_true_iff.mp hcontra with h1 | h1
  · rw [show c = '&' from by simpa using h1] at hw
    exact absurd hw (by decide)
  · rw [show c = '*' from by simpa using h1] at hw
    exact absurd hw (by decide)

/-- A successful template match returns the maximal leading `[\w:]` run as
group 1. -/
theorem templateMatch_group1 {s w mid : Str} (h : templateMatch s = some (w, mid)) :
    w = s.takeWhile isWordColon := by
  simp only [templateMatch] at h
  split at h
  · exact absurd h (by simp)
  · split at h
    · split at h
      · split at h
        · exact absurd h (by simp)
        · injection h with h2
          exact congrArg Prod.fst h2.symm
      · exact absurd h (by simp)
    · exact absurd h (by simp)

/-- Everything `cleanBases` holds of list members transfers to `cleanList`. -/
theorem cleanList_of_forall : ∀ {ts : List TypeRef}, (∀ t ∈ ts, cleanBases t = true) →
    cleanList ts = true
  | [], _ => rfl
  | t :: ts, h => by
    rw [cleanList]
    exact Bool.and_eq_true .. ▸
      ⟨h t (List.mem_cons_self t ts), cleanList_of_forall fun x hx => h x (List.mem_cons_of_mem _ hx)⟩

/-- Joint invariant of `parse_type` and its template-argument loop: every
base produced is free of `&` and `*`, recursively. -/
theorem parse_type_clean_aux : ∀ fuel : Nat,
    (∀ s t, parse_type fuel s = .ok t → cleanBases t = true)
    ∧ (∀ l ts, parseTemplateArgs fuel l = .ok ts → ∀ x ∈ ts, cleanBases x = true) := by
  intro fuel
  induction fuel with
  | zero =>
    constructor
    · intro s t h; exact absurd h (by simp [parse_type])
    · intro l ts h x hx
      cases l with
      | nil =>
        simp only [parseTemplateArgs] at h
        injection h with h2
        subst h2
        simp at hx
      | cons a rest => exact absurd h (by simp [parseTemplateArgs])
  | succ fuel ih =>
    constructor
    · intro s t h
      simp only [parse_type] at h
      split at h
      · exact absurd h (by simp)
      · split at h
        next w mid heq =>
          split at h
          · exact absurd h (by simp)
          next targs heq2 =>
            split at h
            · exact absurd h (by simp)
            next hany =>
              injection h with h2
              subst h2
              rw [cleanBases, Bool.and_eq_true]
              constructor
              · simp only [Bool.not_eq_true']
                exact noAmpStar_of_wordColon fun c hc =>
                  List.mem_takeWhile_imp ((templateMatch_group1 heq) ▸ mem_strip hc)
              · exact cleanList_of_forall (ih.2 _ targs heq2)
        next heq =>
          split at h
          · split at h
            · exact absurd h (by simp)
            next hany =>
              injection h with h2
              subst h2
              rw [cleanBases]
              simp only [Bool.not_eq_true']
              exact Bool.eq_false_iff.mpr hany
          · split at h
            · exact absurd h (by simp)
            next hany =>
              injection h with h2
              subst h2
              rw [cleanBases]
              simp only [Bool.not_eq_true']
              exact Bool.eq_false_iff.mpr hany
    · intro l ts h x hx
      cases l with
      | nil =>
        simp only [parseTemplateArgs] at h
        injection h with h2
        subst h2
        simp at hx
      | cons a rest =>
        simp only [parseTemplateArgs] at h
        split at h
        · exact ih.2 rest ts h x hx
        · split at h
          · exact absurd h (by simp)
          next t0 heq0 =>
            split at h
            · exact absurd h (by simp)
            next ts0 heq1 =>
              injection h with h2
              subst h2
              rcases List.mem_cons.mp hx with rfl | hx2
              · exact ih.1 _ x heq0
              · exact ih.2 rest ts0 heq1 x hx2

/-- C8 amended: on every input accepted by `parse_type`, the resulting base
— and recursively the base of every template argument — contains no `*` or
`&` character (the identifier-shape half of the claim is refuted by the
counterexample: `base` may contain spaces or be empty, since the parser
never validates its shape). -/
theorem c8_amended_clean_bases (fuel : Nat) (s : Str) (t : TypeRef)
    (h : parse_type fuel s = .ok t) : cleanBases t = true :=
  (parse_type_clean_aux fuel).1 s t h

/-- Witness for C8 amended at the template input `const Foo::Bar<int, T> &`. -/
theorem c8_amended_clean_bases_witness :
    cleanBases ⟨some (("&").data), true,
      some [baseT (("int").data), baseT (("T").data)], ("Foo::Bar").data⟩ = true :=
  c8_amended_clean_bases 64 (("const Foo::Bar<int, T> &").data) _ rfl

/-- C7: after the resolution pass, every registry entry of kind `typedef`
never marked used is pruned (first conjunct), while any entry whose name
was marked used survives the pruning (second conjunct); in the concrete
pruning scenario `Unused` is gone and `Used` remains (third conjunct), and
`add_meaning` then populates the meaning of the surviving well-known
typedef `Used` (fourth conjunct). -/
theorem c7_typedef_pruning :
    (∀ (types : Registry) (used : List Str) (n : Str) (e : Entry),
        (n, e) ∈ pruneUnusedTypedefs types used →
        e.kind.getD [] = ("typedef").data → used.contains n = true)
    ∧ (∀ (types : Registry) (used : List Str) (p : Str × Entry),
        p ∈ types → used.contains p.1 = true → p ∈ pruneUnusedTypedefs types used)
    ∧ pruneUnusedTypedefs pruneRegistry pruneUsed =
        [((("Used").data), typedefEntry), ((("int").data), builtinEntry)]
    ∧ add_meaning 32 (pruneUnusedTypedefs pruneRegistry pruneUsed) (("Used").data) (("int").data) =
        .ok [((("Used").data), { typedefEntry with meaning := some (baseT (("int").data)) }),
             ((("int").data), builtinEntry)] := by
  refine ⟨?_, ?_, rfl, rfl⟩
  · intro types used n e hmem hk
    have h2 := List.of_mem_filter hmem
    simp only [decide_eq_true_eq] at h2
    by_contra hc
    exact h2 ⟨hk, by simpa using hc⟩
  · intro types used p hp hc
    refine List.mem_filter.mpr ⟨hp, ?_⟩
    simp only [decide_eq_true_eq]
    intro hcon
    exact hcon.2 hc

/-- Witness for C7 at the concrete pruning scenario. -/
theorem c7_typedef_pruning_witness :
    ((("Used").data, typedefEntry) ∈ pruneUnusedTypedefs pruneRegistry pruneUsed)
    ∧ pruneUsed.contains (("Used").data) = true :=
  ⟨c7_typedef_pruning.2.1 pruneRegistry pruneUsed ((("Used").data), typedefEntry)
      (List.Mem.tail _ (List.Mem.head _)) rfl,
   c7_typedef_pruning.1 pruneRegistry pruneUsed (("Used").data) typedefEntry
      (List.Mem.head _) rfl⟩

/-- C9 amended: a duplicate literal name in one enum value table is always
logged with the `encountered multiple times` error, and a second message is
logged exactly when the values disagree; in both cases the first-seen value
is kept and the duplicate row is the only data dropped (general part).  The
closed conjunct shows a later distinct row surviving a
disagreeing-duplicate row unharmed. -/
theorem c9_amended_duplicate_logging :
    (∀ (n v1 v2 d1 d2 : Str), strip n = n → strip v1 = v1 → strip v2 = v2 →
      processValueRows none [(n, v1, d1), (n, v2, d2)] [] [] =
        .ok ([⟨n, v1, d1⟩],
             ((("Enum value ").data ++ n ++ (" is encountered multiple times.").data) ::
              (if v2 = v1 then [] else [("And values are not the same. Nuff said.").data]))))
    ∧ processValueRows none
        [((("A").data), (("1").data), (("x").data)),
         ((("A").data), (("2").data), (("y").data)),
         ((("B").data), (("3").data), (("z").data))] [] [] =
      .ok ([⟨("A").data, ("1").data, ("x").data⟩, ⟨("B").data, ("3").data, ("z").data⟩],
           [("Enum value A is encountered multiple times.").data,
            ("And values are not the same. Nuff said.").data]) := by
  constructor
  · intro n v1 v2 d1 d2 hn hv1 hv2
    simp only [processValueRows, nsTruthy, hn, hv1, hv2, List.find?, decide_True,
      List.nil_append]
    by_cases hv : v2 = v1 <;> simp [hv]
  · rfl

/-- Witness for C9 amended at concrete duplicate rows with equal values. -/
theorem c9_amended_duplicate_logging_witness :
    processValueRows none
        [((("E").data), (("7").data), (("a").data)),
         ((("E").data), (("7").data), (("b").data))] [] [] =
      .ok ([⟨("E").data, ("7").data, ("a").data⟩],
           [("Enum value E is encountered multiple times.").data]) := by
  simpa using c9_amended_duplicate_logging.1 (("E").data) (("7").data) (("7").data)
    (("a").data) (("b").data) rfl rfl rfl

/-- A method accepted by `classifyMember` satisfies the return-type
discipline: a marker-free non-variable method has a return type, and a
constructor or destructor has none. -/
theorem classifyMember_inv {cn : Str} {m0 m : Method}
    (h0c : m0.constructor = false) (h0d : m0.destructor = false)
    (h : classifyMember cn m0 = .ok m) :
    ((m.is_variable = false ∧ m.constructor = false ∧ m.destructor = false ∧ m.operator = none) →
      m.return_type.isSome = true)
    ∧ ((m.constructor = true ∨ m.destructor = true) → m.return_type = none) := by
  unfold classifyMember at h
  split at h
  · split at h
    · exact absurd h (by simp)
    next hrt =>
      injection h with h2
      subst h2
      constructor
      · intro hx
        exact absurd hx.2.1 (by simp)
      · intro _
        simpa using hrt
  · split at h
    · split at h
      · exact absurd h (by simp)
      next hrt =>
        injection h with h2
        subst h2
        constructor
        · intro hx
          exact absurd hx.2.2.1 (by simp)
        · intro _
          simpa using hrt
    · split at h
      next hop =>
        injection h with h2
        subst h2
        constructor
        · intro hx
          rw [hx.2.2.2] at hop
          exact absurd hop (by simp)
        · intro hcd
          rcases hcd with hc | hd
          · exact absurd (h0c ▸ hc) (by simp)
          · exact absurd (h0d ▸ hd) (by simp)
      · split at h
        · exact absurd h (by simp)
        next hrt =>
          injection h with h2
          subst h2
          constructor
          · intro _
            simp [hrt]
          · intro hcd
            rcases hcd with hc | hd
            · exact absurd (h0c ▸ hc) (by simp)
            · exact absurd (h0d ▸ hd) (by simp)

/-- A method produced by the class-scope branch of `parseCallable` went
through `classifyMember`, so it satisfies the return-type discipline. -/
theorem parseCallable_inv {fuel : Nat} {cn scope : Str} {virt : Bool}
    {ret : Option TypeRef} {sig : Str} {m : Method}
    (h : parseCallable fuel (some cn) scope virt ret sig = .ok (some m)) :
    ((m.is_variable = false ∧ m.constructor = false ∧ m.destructor = false ∧ m.operator = none) →
      m.return_type.isSome = true)
    ∧ ((m.constructor = true ∨ m.destructor = true) → m.return_type = none) := by
  simp only [parseCallable] at h
  split at h
  · exact absurd h (by simp)
  next name after heqn =>
    split at h
    · exact absurd h (by simp)
    next argsText sufText heqr =>
      split at h
      · exact absurd h (by simp)
      next args varargs heqa =>
        split at h
        · exact absurd h (by simp)
        · split at h
          · exact absurd h (by simp)
          next m1 heqc =>
            injection h with h2
            injection h2 with h3
            subst h3
            exact classifyMember_inv rfl rfl heqc

/-- A method produced by a `parse_methods` row in class scope satisfies the
return-type discipline. -/
theorem parse_row_inv {fuel : Nat} {cn : Str} {a b : Str} {m : Method}
    (h : parse_row fuel (some cn) a b = .ok (some m)) :
    ((m.is_variable = false ∧ m.constructor = false ∧ m.destructor = false ∧ m.operator = none) →
      m.return_type.isSome = true)
    ∧ ((m.constructor = true ∨ m.destructor = true) → m.return_type = none) := by
  simp only [parse_row] at h
  split at h
  · exact absurd h (by simp)
  · split at h
    · exact absurd h (by simp)
    next ret heqret =>
      split at h
      · split at h
        · exact absurd h (by simp)
        next t heqt =>
          injection h with h2
          injection h2 with h3
          subst h3
          constructor
          · intro hx
            exact absurd hx.1 (by simp)
          · intro hcd
            rcases hcd with hc | hd
            · exact absurd hc (by simp)
            · exact absurd hd (by simp)
      · exact parseCallable_inv h

/-- C6 amended: every successfully parsed class-scope method descriptor
that is not a bare variable declaration and carries no constructor,
destructor, or operator marker has a return type; conversely every
constructor or destructor descriptor carries none (a declaration for which
a return type was parsed is rejected).  The variable-declaration exclusion
is forced by the counterexample: a field row produces a marker-free
class-scope descriptor without a return type. -/
theorem c6_amended_return_type_discipline :
    ∀ (fuel : Nat) (cn : Str) (rows : List (Str × Str)) (ms : List Method),
      parse_methods fuel (some cn) rows = .ok ms → ∀ m ∈ ms,
      ((m.is_variable = false ∧ m.constructor = false ∧ m.destructor = false ∧ m.operator = none) →
        m.return_type.isSome = true)
      ∧ ((m.constructor = true ∨ m.destructor = true) → m.return_type = none) := by
  intro fuel cn rows
  induction rows with
  | nil =>
    intro ms h m hm
    simp only [parse_methods] at h
    injection h with h2
    subst h2
    simp at hm
  | cons row rest ih =>
    intro ms h m hm
    rcases row with ⟨a, b⟩
    simp only [parse_methods] at h
    split at h
    next heq0 => exact ih ms h m hm
    next m0 heq0 =>
      split at h
      · exact absurd h (by simp)
      next ms0 heq1 =>
        injection h with h2
        subst h2
        rcases List.mem_cons.mp hm with rfl | hm2
        · exact parse_row_inv heq0
        · exact ih ms0 heq1 m hm2
    next e heq0 =>
      split at h
      · exact ih ms h m hm
      · exact absurd h (by simp)

/-- Witness for C6 amended: the descriptor parsed from `rowGood` in class
scope has a return type. -/
theorem c6_amended_return_type_discipline_witness :
    methodBar.return_type.isSome = true :=
  (c6_amended_return_type_discipline 64 (("Foo").data) [rowGood] [methodBar] rfl methodBar
    (List.Mem.head _)).1 ⟨rfl, rfl, rfl, rfl⟩

/-- Dropping while a predicate never holds is the identity. -/
theorem dropWhile_eq_self_of {p : Char → Bool} :
    ∀ {l : Str}, (∀ c ∈ l, p c = false) → l.dropWhile p = l
  | [], _ => rfl
  | c :: cs, h => by
    rw [List.dropWhile_cons]
    simp [h c (List.mem_cons_self c cs)]

/-- Stripping a string without whitespace is the identity. -/
theorem strip_eq_self {l : Str} (h : ∀ c ∈ l, pyIsSpace c = false) : strip l = l := by
  unfold strip lstrip rstrip
  rw [dropWhile_eq_self_of h]
  rw [dropWhile_eq_self_of (fun c hc => h c (List.mem_reverse.mp hc))]
  exact List.reverse_reverse l

/-- The template regex cannot match a string containing no `<`. -/
theorem templateMatch_none_of_no_lt {s : Str} (h : ∀ c ∈ s, ¬c = '<') :
    templateMatch s = none := by
  simp only [templateMatch]
  split
  · rfl
  · split
    next tail heq =>
      exfalso
      have h1 : '<' ∈ List.dropWhile pyIsSpace (s.drop (s.takeWhile isWordColon).length) :=
        heq ▸ List.mem_cons_self _ _
      have h2 : '<' ∈ s.drop (s.takeWhile isWordColon).length :=
        List.Sublist.mem h1 (List.dropWhile_sublist _)
      exact h '<' (List.Sublist.mem h2 (List.drop_sublist _ _)) rfl
    · rfl

/-- The possible shapes of the remaining string after the one-shot
indirection-suffix stripping. -/
theorem stripIndirection_snd_cases (s : Str) :
    (stripIndirection s).2 = strip (s.take (s.length - 2))
    ∨ (stripIndirection s).2 = strip (s.take (s.length - 1))
    ∨ (stripIndirection s).2 = s := by
  unfold stripIndirection
  split_ifs <;> simp

/-- C5 counterexample: `int&*` carries only a two-character indirection
suffix, not a triple-or-more one, yet `parse_type` fails on it with the
`TooMuchIndirection` condition (`&*` is not in the suffix list, so only the
final `*` is stripped and the leftover `&` triggers the failure) — refuting
`fails ... exactly when a triple-or-more indirection suffix is attempted`. -/
theorem c5_counterexample_double_suffix_fails :
    parse_type 64 ((("int").data ++ ("&*").data)) =
      .error (.typeParse ((("Invalid type: ").data ++ ("int&*").data
        ++ (": too much indirection").data)))
    ∧ (("&*").data).length = 2 :=
  ⟨rfl, rfl⟩

/-- C5 amended: the four inputs `int*`, `int&`, `int&&`, `int**` each
succeed with pairwise distinct indirection tags (the literal stripped
suffix), and `parse_type` fails with `TooMuchIndirection` whenever the
string left after the single suffix-strip and const-strip still contains
`*` or `&`: in particular every suffix of three or more `*`/`&` characters
fails (general conjunct), but so do some two-character suffixes not in the
suffix list, such as `&*`. -/
theorem c5_amended_indirection_tags :
    parse_type 64 (("int*").data) =
      .ok { indirection := some (("*").data), is_const := false,
            template_arguments := none, base := ("int").data }
    ∧ parse_type 64 (("int&").data) =
      .ok { indirection := some (("&").data), is_const := false,
            template_arguments := none, base := ("int").data }
    ∧ parse_type 64 (("int&&").data) =
      .ok { indirection := some (("&&").data), is_const := false,
            template_arguments := none, base := ("int").data }
    ∧ parse_type 64 (("int**").data) =
      .ok { indirection := some (("**").data), is_const := false,
            template_arguments := none, base := ("int").data }
    ∧ parse_type 64 (("int***").data) =
      .error (.typeParse ((("Invalid type: ").data ++ ("int***").data
        ++ (": too much indirection").data)))
    ∧ parse_type 64 (("int&*").data) =
      .error (.typeParse ((("Invalid type: ").data ++ ("int&*").data
        ++ (": too much indirection").data)))
    ∧ (∀ (fuel : Nat) (s : Str), (∀ c ∈ s, c = '*' ∨ c = '&') → 3 ≤ s.length →
        ∃ msg, parse_type (fuel + 1) ((("int").data ++ s)) = .error (.typeParse msg)) := by
  refine ⟨rfl, rfl, rfl, rfl, rfl, rfl, ?_⟩
  intro fuel s hind hlen
  have hnosp : ∀ c ∈ (("int").data ++ s), pyIsSpace c = false := by
    intro c hc
    rcases List.mem_append.mp hc with h1 | h1
    · have h3 : c = 'i' ∨ c = 'n' ∨ c = 't' := by simpa using h1
      rcases h3 with rfl | rfl | rfl <;> decide
    · rcases hind c h1 with rfl | rfl <;> decide
  have hstrip : strip (("int").data ++ s) = ("int").data ++ s := strip_eq_self hnosp
  have key : ∀ y : Str, y ≠ [] → (∀ c ∈ y, c = '*' ∨ c = '&') →
      (stripIndirection (("int").data ++ s)).2 = ("int").data ++ y →
      ∃ msg, parse_type (fuel + 1) ((("int").data ++ s)) = .error (.typeParse msg) := by
    intro y hne hyind heq2
    have hie : ((("int").data ++ s).isEmpty) = false := rfl
    have hconst : isPrefixL (("const ").data) ((("int").data ++ y)) = false := rfl
    have htm : templateMatch ((("int").data ++ y)) = none := by
      refine templateMatch_none_of_no_lt ?_
      intro c hc
      rcases List.mem_append.mp hc with h1 | h1
      · have h3 : c = 'i' ∨ c = 'n' ∨ c = 't' := by simpa using h1
        rcases h3 with rfl | rfl | rfl <;> decide
      · rcases hyind c h1 with rfl | rfl <;> decide
    have hany : ((("int").data ++ y).any (fun c => c == '&' || c == '*')) = true := by
      rcases y with _ | ⟨c, y2⟩
      · exact absurd rfl hne
      · rcases hyind c (List.mem_cons_self c y2) with rfl | rfl
        · rfl
        · rfl
    rw [parse_type, hstrip, heq2]
    simp only [hie, Bool.false_eq_true, if_false, hconst, htm, hany, if_true]
    exact ⟨_, rfl⟩
  have hlen3 : (("int").data ++ s).length = 3 + s.length := by
    simp [List.length_append]
    omega
  rcases stripIndirection_snd_cases ((("int").data ++ s)) with hc | hc | hc
  · refine key (s.take (s.length - 2)) ?_ ?_ ?_
    · refine List.ne_nil_of_length_pos ?_
      rw [List.length_take]
      omega
    · exact fun c hcm => hind c (List.take_subset _ _ hcm)
    · rw [hc]
      have harith : (("int").data ++ s).length - 2 = (("int").data).length + (s.length - 2) := by
        rw [hlen3]
        simp
        omega
      rw [harith, List.take_append]
      refine strip_eq_self ?_
      intro c hcm
      rcases List.mem_append.mp hcm with h1 | h1
      · have h3 : c = 'i' ∨ c = 'n' ∨ c = 't' := by simpa using h1
        rcases h3 with rfl | rfl | rfl <;> decide
      · rcases hind c (List.take_subset _ _ h1) with rfl | rfl <;> decide
  · refine key (s.take (s.length - 1)) ?_ ?_ ?_
    · refine List.ne_nil_of_length_pos ?_
      rw [List.length_take]
      omega
    · exact fun c hcm => hind c (List.take_subset _ _ hcm)
    · rw [hc]
      have harith : (("int").data ++ s).length - 1 = (("int").data).length + (s.length - 1) := by
        rw [hlen3]
        simp
        omega
      rw [harith, List.take_append]
      refine strip_eq_self ?_
      intro c hcm
      rcases List.mem_append.mp hcm with h1 | h1
      · have h3 : c = 'i' ∨ c = 'n' ∨ c = 't' := by simpa using h1
        rcases h3 with rfl | rfl | rfl <;> decide
      · rcases hind c (List.take_subset _ _ h1) with rfl | rfl <;> decide
  · refine key s ?_ hind hc
    intro hnil
    rw [hnil] at hlen
    simp at hlen

/-- Witness for C5 amended at the triple-star suffix. -/
theorem c5_amended_indirection_tags_witness :
    ∃ msg, parse_type 64 ((("int").data ++ ("***").data)) = .error (.typeParse msg) :=
  c5_amended_indirection_tags.2.2.2.2.2.2 63 (("***").data) (by decide) (by decide)
